import Mathlib

/-!
Shallow embedding of the course-tracker data layer: the four Astro DB
tables (`db/tables.ts`) and the server actions of `src/actions/index.ts`.

Modelling conventions:
* Timestamps (`new Date()`, the `NOW` column default) are natural
  numbers; every handler that evaluates `new Date()` or inserts a row
  whose date column defaults to `NOW` receives the current time `now`.
* A table row is a structure; a table is the list of its rows in storage
  order; `autoIncrement` primary keys are modelled with a per-table
  `next...Id` counter in the database state (SQLite assigns ids from 1,
  so in every reachable state ids are positive and pairwise distinct).
* `z.any()` JSON metadata is opaque here and modelled as `String`.
* A handler maps its (already zod-validated) input, the request context,
  the current time and the database state to an `Except` outcome paired
  with the database state after the call, so what an error path leaves
  behind is visible in the result.
* `db.update(...).set(values)` follows the drizzle-orm semantics Astro DB
  uses: entries of `values` that are `undefined` are dropped from the
  generated SET clause (drizzle filters `value !== undefined` when it
  builds the update set), so such columns keep their stored value, while
  `null` entries do set the column to NULL.  `db.insert(...).values(...)`
  omits `undefined` entries, so those columns take their schema default
  (NULL for optional columns, the current time for `NOW` defaults).
* `const [x] = await ...returning()` takes the first returned row; the
  update statements locate rows by primary key, which is unique in every
  reachable state, so the first updated row is the overwrite of the row
  the handler had just looked up, and is modelled as such.
* `if (input.id)` in `saveCourseItem` is JavaScript truthiness: a
  supplied id equal to 0 is falsy and takes the insert branch.
-/

namespace CourseTracker

/-- Timestamps (`Date` values) are modelled as natural numbers. -/
abbrev Time := Nat

/-- Opaque JSON metadata (`column.json` / `z.any()`). -/
abbrev Meta := String

/-- The authenticated user record found in request-scoped context. -/
structure User where
  id : String
  deriving DecidableEq

/-- Request-scoped context: `context.locals.user`, absent when nobody is
signed in. -/
structure ActionAPIContext where
  user : Option User
  deriving DecidableEq

/-- The two application-level error codes the actions throw. -/
inductive ActionError
  | unauthorized
  | notFound
  deriving DecidableEq, BEq

/-- `Courses.level` enum. -/
inductive Level
  | beginner
  | intermediate
  | advanced
  deriving DecidableEq, BEq

/-- `Courses.status` enum. -/
inductive CourseStatus
  | planned
  | in_progress
  | completed
  | dropped
  deriving DecidableEq, BEq

/-- `CourseItems.type` enum. -/
inductive ItemType
  | lesson
  | module
  | assignment
  | quiz
  | exam
  | other
  deriving DecidableEq, BEq

/-- `CourseProgress.status` enum. -/
inductive ProgressStatus
  | not_started
  | in_progress
  | completed
  | dropped
  deriving DecidableEq, BEq

/-- `CourseItemProgress.status` enum. -/
inductive ItemProgressStatus
  | not_started
  | in_progress
  | completed
  | skipped
  deriving DecidableEq, BEq

/-- A row of the `Courses` table. -/
structure Course where
  id : Nat
  ownerId : String
  title : String
  description : Option String
  provider : Option String
  platform : Option String
  url : Option String
  level : Level
  tags : Option String
  status : CourseStatus
  createdAt : Time
  updatedAt : Time
  deriving DecidableEq

/-- A row of the `CourseItems` table. -/
structure CourseItem where
  id : Nat
  courseId : Nat
  type : ItemType
  title : String
  description : Option String
  position : Nat
  dueDate : Option Time
  estimatedMinutes : Option Nat
  isRequired : Bool
  createdAt : Time
  deriving DecidableEq

/-- A row of the `CourseProgress` table. -/
structure CourseProgress where
  id : Nat
  courseId : Nat
  userId : String
  status : ProgressStatus
  startedAt : Option Time
  completedAt : Option Time
  completionPercent : Nat
  totalItems : Nat
  completedItems : Nat
  lastVisitedItemId : Option Nat
  meta : Option Meta
  createdAt : Time
  updatedAt : Time
  deriving DecidableEq

/-- A row of the `CourseItemProgress` table. -/
structure CourseItemProgress where
  id : Nat
  itemId : Nat
  userId : String
  status : ItemProgressStatus
  startedAt : Option Time
  completedAt : Option Time
  notes : Option String
  createdAt : Time
  deriving DecidableEq

/-- The database state: the four tables plus the autoincrement counters
for their primary keys. -/
structure DB where
  courses : List Course
  courseItems : List CourseItem
  courseProgress : List CourseProgress
  courseItemProgress : List CourseItemProgress
  nextCourseId : Nat
  nextItemId : Nat
  nextProgressId : Nat
  nextItemProgressId : Nat
  deriving DecidableEq

/-- `createCourse` input (after zod validation). -/
structure CreateCourseInput where
  title : String
  description : Option String
  provider : Option String
  platform : Option String
  url : Option String
  level : Option Level
  tags : Option String
  status : Option CourseStatus
  deriving DecidableEq

/-- `updateCourse` input: required id plus any subset of mutable fields. -/
structure UpdateCourseInput where
  id : Nat
  title : Option String
  description : Option String
  provider : Option String
  platform : Option String
  url : Option String
  level : Option Level
  tags : Option String
  status : Option CourseStatus
  deriving DecidableEq

/-- `listMyCourses` input object (the whole object is itself optional at
the call site). -/
structure ListMyCoursesInput where
  status : Option CourseStatus
  deriving DecidableEq

/-- `getCourseWithItems` input. -/
structure GetCourseWithItemsInput where
  id : Nat
  deriving DecidableEq

/-- `saveCourseItem` input. -/
structure SaveCourseItemInput where
  id : Option Nat
  courseId : Nat
  type : Option ItemType
  title : String
  description : Option String
  position : Option Nat
  dueDate : Option Time
  estimatedMinutes : Option Nat
  isRequired : Option Bool
  deriving DecidableEq

/-- `deleteCourseItem` input. -/
structure DeleteCourseItemInput where
  id : Nat
  courseId : Nat
  deriving DecidableEq

/-- `upsertCourseProgress` input. -/
structure UpsertCourseProgressInput where
  courseId : Nat
  status : Option ProgressStatus
  completionPercent : Option Nat
  totalItems : Option Nat
  completedItems : Option Nat
  lastVisitedItemId : Option Nat
  meta : Option Meta
  deriving DecidableEq

/-- `updateCourseItemProgress` input. -/
structure UpdateCourseItemProgressInput where
  itemId : Nat
  status : Option ItemProgressStatus
  startedAt : Option Time
  completedAt : Option Time
  notes : Option String
  deriving DecidableEq

/-- `requireUser`: return the user from request context or throw
UNAUTHORIZED. -/
def requireUser (context : ActionAPIContext) : Except ActionError User :=
  match context.user with
  | none => .error .unauthorized
  | some user => .ok user

/-- The row `createCourse` inserts (fresh id from the autoincrement
counter, both timestamps stamped with the current time). -/
def createCourseRow (input : CreateCourseInput) (uid : String) (now : Time)
    (newId : Nat) : Course :=
  { id := newId
    ownerId := uid
    title := input.title
    description := input.description
    provider := input.provider
    platform := input.platform
    url := input.url
    level := input.level.getD .beginner
    tags := input.tags
    status := input.status.getD .planned
    createdAt := now
    updatedAt := now }

/-- `createCourse` handler. -/
def createCourse (input : CreateCourseInput) (context : ActionAPIContext)
    (now : Time) (db : DB) : Except ActionError Course × DB :=
  match requireUser context with
  | .error e => (.error e, db)
  | .ok user =>
    let course := createCourseRow input user.id now db.nextCourseId
    (.ok course,
      { db with
          courses := db.courses ++ [course]
          nextCourseId := db.nextCourseId + 1 })

/-- Whether `updateCourse`'s `updateData` object is nonempty, i.e. at
least one of the optional fields of `rest` is defined. -/
def UpdateCourseInput.hasChanges (input : UpdateCourseInput) : Bool :=
  input.title.isSome || input.description.isSome || input.provider.isSome ||
  input.platform.isSome || input.url.isSome || input.level.isSome ||
  input.tags.isSome || input.status.isSome

/-- The effect of `updateCourse`'s SET clause on one course row: fields
present in `updateData` are overwritten, absent fields keep their stored
value, and `updatedAt` is stamped. -/
def applyCourseUpdate (input : UpdateCourseInput) (now : Time) (c : Course) :
    Course :=
  { c with
    title := input.title.getD c.title
    description := input.description.or c.description
    provider := input.provider.or c.provider
    platform := input.platform.or c.platform
    url := input.url.or c.url
    level := input.level.getD c.level
    tags := input.tags.or c.tags
    status := input.status.getD c.status
    updatedAt := now }

/-- `updateCourse` handler. -/
def updateCourse (input : UpdateCourseInput) (context : ActionAPIContext)
    (now : Time) (db : DB) : Except ActionError Course × DB :=
  match requireUser context with
  | .error e => (.error e, db)
  | .ok user =>
    match db.courses.find? (fun c => c.id == input.id && c.ownerId == user.id) with
    | none => (.error .notFound, db)
    | some existing =>
      if input.hasChanges then
        (.ok (applyCourseUpdate input now existing),
          { db with
              courses := db.courses.map (fun c =>
                if c.id == input.id && c.ownerId == user.id then
                  applyCourseUpdate input now c
                else c) })
      else
        (.ok existing, db)

/-- `listMyCourses` handler. -/
def listMyCourses (input : Option ListMyCoursesInput)
    (context : ActionAPIContext) (db : DB) :
    Except ActionError (List Course) × DB :=
  match requireUser context with
  | .error e => (.error e, db)
  | .ok user =>
    let courses := db.courses.filter (fun c => c.ownerId == user.id)
    let filtered :=
      match input.bind ListMyCoursesInput.status with
      | some s => courses.filter (fun c => c.status == s)
      | none => courses
    (.ok filtered, db)

/-- `getCourseWithItems` handler. -/
def getCourseWithItems (input : GetCourseWithItemsInput)
    (context : ActionAPIContext) (db : DB) :
    Except ActionError (Course × List CourseItem) × DB :=
  match requireUser context with
  | .error e => (.error e, db)
  | .ok user =>
    match db.courses.find? (fun c => c.id == input.id && c.ownerId == user.id) with
    | none => (.error .notFound, db)
    | some course =>
      (.ok (course, db.courseItems.filter (fun it => it.courseId == input.id)), db)

/-- The row `saveCourseItem` inserts: `baseValues` with a fresh id;
`undefined` optional values fall to the schema defaults (NULL). -/
def saveItemRow (input : SaveCourseItemInput) (now : Time) (newId : Nat) :
    CourseItem :=
  { id := newId
    courseId := input.courseId
    type := input.type.getD .lesson
    title := input.title
    description := input.description
    position := input.position.getD 0
    dueDate := input.dueDate
    estimatedMinutes := input.estimatedMinutes
    isRequired := input.isRequired.getD true
    createdAt := now }

/-- The effect of `saveCourseItem`'s SET clause (`baseValues`) on one
item row.  The `undefined` entries of `baseValues` — `description`,
`dueDate`, `estimatedMinutes` when the input omits them — are dropped
from the SET clause by drizzle, so those columns keep their stored
value; every other entry is always defined and overwrites the column,
including `createdAt := now`. -/
def saveItemOverwrite (input : SaveCourseItemInput) (now : Time)
    (e : CourseItem) : CourseItem :=
  { e with
    courseId := input.courseId
    type := input.type.getD .lesson
    title := input.title
    description := input.description.or e.description
    position := input.position.getD 0
    dueDate := input.dueDate.or e.dueDate
    estimatedMinutes := input.estimatedMinutes.or e.estimatedMinutes
    isRequired := input.isRequired.getD true
    createdAt := now }

/-- The insert arm of `saveCourseItem` (reached when no id is supplied,
or a supplied id is falsy). -/
def saveCourseItemInsert (input : SaveCourseItemInput) (now : Time) (db : DB) :
    Except ActionError CourseItem × DB :=
  let item := saveItemRow input now db.nextItemId
  (.ok item,
    { db with
        courseItems := db.courseItems ++ [item]
        nextItemId := db.nextItemId + 1 })

/-- `saveCourseItem` handler. -/
def saveCourseItem (input : SaveCourseItemInput) (context : ActionAPIContext)
    (now : Time) (db : DB) : Except ActionError CourseItem × DB :=
  match requireUser context with
  | .error e => (.error e, db)
  | .ok user =>
    match db.courses.find? (fun c => c.id == input.courseId && c.ownerId == user.id) with
    | none => (.error .notFound, db)
    | some _course =>
      match input.id with
      | some itemId =>
        if itemId != 0 then
          match db.courseItems.find? (fun it => it.id == itemId) with
          | none => (.error .notFound, db)
          | some existing =>
            if existing.courseId != input.courseId then
              (.error .notFound, db)
            else
              (.ok (saveItemOverwrite input now existing),
                { db with
                    courseItems := db.courseItems.map (fun it =>
                      if it.id == itemId then saveItemOverwrite input now it
                      else it) })
        else
          saveCourseItemInsert input now db
      | none => saveCourseItemInsert input now db

/-- `deleteCourseItem` handler.  The delete statement runs before the
"item found" check: the rows matching (id, courseId) are removed and the
first deleted row is returned, NOT_FOUND being thrown only afterwards
when nothing matched. -/
def deleteCourseItem (input : DeleteCourseItemInput)
    (context : ActionAPIContext) (db : DB) :
    Except ActionError CourseItem × DB :=
  match requireUser context with
  | .error e => (.error e, db)
  | .ok user =>
    match db.courses.find? (fun c => c.id == input.courseId && c.ownerId == user.id) with
    | none => (.error .notFound, db)
    | some _course =>
      let db2 :=
        { db with
            courseItems := db.courseItems.filter (fun it =>
              !(it.id == input.id && it.courseId == input.courseId)) }
      match (db.courseItems.filter (fun it =>
          it.id == input.id && it.courseId == input.courseId)).head? with
      | none => (.error .notFound, db2)
      | some deleted => (.ok deleted, db2)

/-- The `baseValues` object of `upsertCourseProgress`: every field is
resolved as input value if supplied, else the existing row's value, else
the stated default; `startedAt` resolves to the existing row's value
when that is set and to the current time otherwise. -/
structure ProgressValues where
  courseId : Nat
  userId : String
  status : ProgressStatus
  completionPercent : Nat
  totalItems : Nat
  completedItems : Nat
  lastVisitedItemId : Option Nat
  meta : Option Meta
  startedAt : Time
  updatedAt : Time
  deriving DecidableEq

/-- `baseValues` of `upsertCourseProgress`, computed from the input, the
acting user and the optional existing row. -/
def progressBaseValues (input : UpsertCourseProgressInput) (uid : String)
    (now : Time) (existing : Option CourseProgress) : ProgressValues :=
  { courseId := input.courseId
    userId := uid
    status := input.status.getD ((existing.map CourseProgress.status).getD .not_started)
    completionPercent :=
      input.completionPercent.getD ((existing.map CourseProgress.completionPercent).getD 0)
    totalItems := input.totalItems.getD ((existing.map CourseProgress.totalItems).getD 0)
    completedItems :=
      input.completedItems.getD ((existing.map CourseProgress.completedItems).getD 0)
    lastVisitedItemId :=
      input.lastVisitedItemId.or (existing.bind CourseProgress.lastVisitedItemId)
    meta := input.meta.or (existing.bind CourseProgress.meta)
    startedAt := (existing.bind CourseProgress.startedAt).getD now
    updatedAt := now }

/-- The effect of `upsertCourseProgress`'s SET clause on one progress
row: every `baseValues` entry is written (none is `undefined` when an
existing row was found); `id`, `createdAt` and `completedAt` are not in
`baseValues` and keep their stored values. -/
def applyProgressSet (v : ProgressValues) (e : CourseProgress) : CourseProgress :=
  { e with
    courseId := v.courseId
    userId := v.userId
    status := v.status
    completionPercent := v.completionPercent
    totalItems := v.totalItems
    completedItems := v.completedItems
    lastVisitedItemId := v.lastVisitedItemId
    meta := v.meta
    startedAt := some v.startedAt
    updatedAt := v.updatedAt }

/-- The row `upsertCourseProgress` inserts: `baseValues` plus a fresh id,
`completedAt` left at its NULL default and `createdAt` at its `NOW`
default. -/
def insertProgressRow (v : ProgressValues) (newId : Nat) (now : Time) :
    CourseProgress :=
  { id := newId
    courseId := v.courseId
    userId := v.userId
    status := v.status
    startedAt := some v.startedAt
    completedAt := none
    completionPercent := v.completionPercent
    totalItems := v.totalItems
    completedItems := v.completedItems
    lastVisitedItemId := v.lastVisitedItemId
    meta := v.meta
    createdAt := now
    updatedAt := v.updatedAt }

/-- `upsertCourseProgress` handler. -/
def upsertCourseProgress (input : UpsertCourseProgressInput)
    (context : ActionAPIContext) (now : Time) (db : DB) :
    Except ActionError CourseProgress × DB :=
  match requireUser context with
  | .error e => (.error e, db)
  | .ok user =>
    match db.courses.find? (fun c => c.id == input.courseId && c.ownerId == user.id) with
    | none => (.error .notFound, db)
    | some _course =>
      match db.courseProgress.find? (fun p =>
          p.courseId == input.courseId && p.userId == user.id) with
      | some existing =>
        let v := progressBaseValues input user.id now (some existing)
        (.ok (applyProgressSet v existing),
          { db with
              courseProgress := db.courseProgress.map (fun p =>
                if p.id == existing.id then applyProgressSet v p else p) })
      | none =>
        let v := progressBaseValues input user.id now none
        let row := insertProgressRow v db.nextProgressId now
        (.ok row,
          { db with
              courseProgress := db.courseProgress ++ [row]
              nextProgressId := db.nextProgressId + 1 })

/-- The `baseValues` object of `updateCourseItemProgress`. -/
structure ItemProgressValues where
  itemId : Nat
  userId : String
  status : ItemProgressStatus
  startedAt : Option Time
  completedAt : Option Time
  notes : Option String
  deriving DecidableEq

/-- `baseValues` of `updateCourseItemProgress`. -/
def itemProgressBaseValues (input : UpdateCourseItemProgressInput)
    (uid : String) (existing : Option CourseItemProgress) : ItemProgressValues :=
  { itemId := input.itemId
    userId := uid
    status := input.status.getD ((existing.map CourseItemProgress.status).getD .not_started)
    startedAt := input.startedAt.or (existing.bind CourseItemProgress.startedAt)
    completedAt := input.completedAt.or (existing.bind CourseItemProgress.completedAt)
    notes := input.notes.or (existing.bind CourseItemProgress.notes) }

/-- The effect of `updateCourseItemProgress`'s SET clause on one row
(`id` and `createdAt` are not in `baseValues`). -/
def applyItemProgressSet (v : ItemProgressValues) (e : CourseItemProgress) :
    CourseItemProgress :=
  { e with
    itemId := v.itemId
    userId := v.userId
    status := v.status
    startedAt := v.startedAt
    completedAt := v.completedAt
    notes := v.notes }

/-- The row `updateCourseItemProgress` inserts (`createdAt` takes its
`NOW` default). -/
def insertItemProgressRow (v : ItemProgressValues) (newId : Nat) (now : Time) :
    CourseItemProgress :=
  { id := newId
    itemId := v.itemId
    userId := v.userId
    status := v.status
    startedAt := v.startedAt
    completedAt := v.completedAt
    notes := v.notes
    createdAt := now }

/-- `updateCourseItemProgress` handler. -/
def updateCourseItemProgress (input : UpdateCourseItemProgressInput)
    (context : ActionAPIContext) (now : Time) (db : DB) :
    Except ActionError CourseItemProgress × DB :=
  match requireUser context with
  | .error e => (.error e, db)
  | .ok user =>
    match db.courseItems.find? (fun it => it.id == input.itemId) with
    | none => (.error .notFound, db)
    | some item =>
      match db.courses.find? (fun c => c.id == item.courseId && c.ownerId == user.id) with
      | none => (.error .notFound, db)
      | some _course =>
        match db.courseItemProgress.find? (fun p =>
            p.itemId == input.itemId && p.userId == user.id) with
        | some existing =>
          let v := itemProgressBaseValues input user.id (some existing)
          (.ok (applyItemProgressSet v existing),
            { db with
                courseItemProgress := db.courseItemProgress.map (fun p =>
                  if p.id == existing.id then applyItemProgressSet v p else p) })
        | none =>
          let v := itemProgressBaseValues input user.id none
          let row := insertItemProgressRow v db.nextItemProgressId now
          (.ok row,
            { db with
                courseItemProgress := db.courseItemProgress ++ [row]
                nextItemProgressId := db.nextItemProgressId + 1 })

/-- The number of CourseProgress rows for one (courseId, userId) pair. -/
def pairCount (db : DB) (cid : Nat) (uid : String) : Nat :=
  db.courseProgress.countP (fun p => p.courseId == cid && p.userId == uid)

/-- Well-formedness of the CourseProgress table in a reachable state:
ids are pairwise distinct and below the autoincrement counter. -/
def ProgressWF (db : DB) : Prop :=
  (db.courseProgress.map CourseProgress.id).Nodup ∧
    ∀ p ∈ db.courseProgress, p.id < db.nextProgressId

/-- Sample user, for concrete evaluations. -/
def alice : User := ⟨"alice"⟩

/-- Another sample user. -/
def bob : User := ⟨"bob"⟩

/-- A sample course owned by `alice`. -/
def sampleCourse : Course :=
  { id := 1
    ownerId := "alice"
    title := "Intro to Go"
    description := none
    provider := none
    platform := none
    url := none
    level := .beginner
    tags := none
    status := .planned
    createdAt := 0
    updatedAt := 0 }

/-- A sample item of `sampleCourse`, carrying a stored description. -/
def sampleItem : CourseItem :=
  { id := 1
    courseId := 1
    type := .quiz
    title := "Lesson 1"
    description := some "keep"
    position := 2
    dueDate := none
    estimatedMinutes := some 30
    isRequired := false
    createdAt := 0 }

/-- A sample database holding `sampleCourse` and `sampleItem`. -/
def sampleDB : DB :=
  { courses := [sampleCourse]
    courseItems := [sampleItem]
    courseProgress := []
    courseItemProgress := []
    nextCourseId := 2
    nextItemId := 2
    nextProgressId := 1
    nextItemProgressId := 1 }

/-- A `saveCourseItem` input targeting `sampleItem` by id and supplying
only the required fields, leaving every optional field absent. -/
def sampleSaveInput : SaveCourseItemInput :=
  { id := some 1
    courseId := 1
    type := none
    title := "Lesson 1 renamed"
    description := none
    position := none
    dueDate := none
    estimatedMinutes := none
    isRequired := none }

/-- An `upsertCourseProgress` input supplying some fields. -/
def sampleUpsertInputA : UpsertCourseProgressInput :=
  { courseId := 1
    status := some .in_progress
    completionPercent := some 40
    totalItems := some 10
    completedItems := some 4
    lastVisitedItemId := some 1
    meta := some "m"
    }

/-- A second `upsertCourseProgress` input leaving most fields absent. -/
def sampleUpsertInputB : UpsertCourseProgressInput :=
  { courseId := 1
    status := none
    completionPercent := some 50
    totalItems := none
    completedItems := none
    lastVisitedItemId := none
    meta := none }

/-- A second course owned by `alice`. -/
def sampleCourse2 : Course :=
  { sampleCourse with id := 2, title := "Second course" }

/-- `sampleDB` with a second course added. -/
def sampleDB2 : DB :=
  { sampleDB with courses := [sampleCourse, sampleCourse2], nextCourseId := 3 }

/-- A `saveCourseItem` input with no id (insert). -/
def sampleSaveInsertInput : SaveCourseItemInput :=
  { id := none
    courseId := 1
    type := none
    title := "New item"
    description := none
    position := none
    dueDate := none
    estimatedMinutes := none
    isRequired := none }

/-- A `saveCourseItem` input targeting item 1 under the wrong course. -/
def sampleSaveWrongCourse : SaveCourseItemInput :=
  { id := some 1
    courseId := 2
    type := none
    title := "Move attempt"
    description := none
    position := none
    dueDate := none
    estimatedMinutes := none
    isRequired := none }

/-- An `updateCourse` input with an empty change set. -/
def sampleUpdateInput : UpdateCourseInput :=
  { id := 1
    title := none
    description := none
    provider := none
    platform := none
    url := none
    level := none
    tags := none
    status := none }

/-- A minimal `createCourse` input. -/
def sampleCreateInput : CreateCourseInput :=
  { title := "T"
    description := none
    provider := none
    platform := none
    url := none
    level := none
    tags := none
    status := none }

/-- The progress row the first sample upsert inserts. -/
def sampleProgressRow : CourseProgress :=
  insertProgressRow (progressBaseValues sampleUpsertInputA "alice" 3 none) 1 3

/-- `sampleDB` after the first sample upsert. -/
def sampleDBAfterA : DB :=
  { sampleDB with courseProgress := [sampleProgressRow], nextProgressId := 2 }

/- ------------------------------------------------------------------ -/
/- Generic list lemmas used by the verification below.                 -/
/- ------------------------------------------------------------------ -/

/-- `find?` returns the unique element satisfying the predicate. -/
theorem find?_eq_some_unique {α : Type} {p : α → Bool} {l : List α} {c : α}
    (hc : c ∈ l) (hpc : p c = true) (huniq : ∀ x ∈ l, p x = true → x = c) :
    l.find? p = some c := by
  induction l with
  | nil => cases hc
  | cons a t ih =>
    by_cases hpa : p a = true
    · have ha : a = c := huniq a (List.mem_cons_self a t) hpa
      rw [List.find?_cons_of_pos t hpa, ha]
    · have hpa2 : ¬ p a := by simpa using hpa
      rw [List.find?_cons_of_neg t hpa2]
      have hct : c ∈ t := by
        rcases List.mem_cons.1 hc with h | h
        · exact absurd (h ▸ hpc) hpa2
        · exact h
      exact ih hct (fun x hx hpx => huniq x (List.mem_cons_of_mem a hx) hpx)

/-- Mapping a function that fixes every member leaves the list intact. -/
theorem map_eq_self_of {α : Type} {f : α → α} {l : List α}
    (h : ∀ x ∈ l, f x = x) : l.map f = l := by
  induction l with
  | nil => rfl
  | cons a t ih =>
    simp only [List.map_cons, h a (List.mem_cons_self a t),
      ih (fun x hx => h x (List.mem_cons_of_mem a hx))]

/-- `find?` skips a prefix in which nothing matches. -/
theorem find?_append_left_none {α : Type} {p : α → Bool} {la lb : List α}
    (h : la.find? p = none) : (la ++ lb).find? p = lb.find? p := by
  simp [List.find?_append, h]

/-- A successful `find?` over a list whose keys are pairwise distinct
splits the list around the found element; nothing in the prefix matches,
and no other element shares the found element's key. -/
theorem find?_decomp_nodup {α β : Type} (key : α → β) {p : α → Bool}
    {l : List α} {e : α} (hnd : (l.map key).Nodup) (hf : l.find? p = some e) :
    ∃ la lb, l = la ++ e :: lb ∧ (∀ x ∈ la, p x = false) ∧
      (∀ x ∈ la, key x ≠ key e) ∧ (∀ x ∈ lb, key x ≠ key e) := by
  induction l with
  | nil => simp at hf
  | cons a t ih =>
    rw [List.map_cons, List.nodup_cons] at hnd
    by_cases hpa : p a = true
    · rw [List.find?_cons_of_pos t hpa] at hf
      have hae : a = e := by injection hf
      subst hae
      refine ⟨[], t, rfl, by simp, by simp, ?_⟩
      intro x hx hkey
      exact hnd.1 (hkey ▸ List.mem_map_of_mem key hx)
    · have hpa2 : ¬ p a := by simpa using hpa
      rw [List.find?_cons_of_neg t hpa2] at hf
      obtain ⟨la, lb, hsplit, hfail, hka, hkb⟩ := ih hnd.2 hf
      have het : e ∈ t := by rw [hsplit]; exact List.mem_append_right la (List.mem_cons_self e lb)
      refine ⟨a :: la, lb, by rw [hsplit, List.cons_append], ?_, ?_, hkb⟩
      · intro x hx
        rcases List.mem_cons.1 hx with h | h
        · subst h; simpa using hpa2
        · exact hfail x h
      · intro x hx
        rcases List.mem_cons.1 hx with h | h
        · subst h
          intro hkey
          exact hnd.1 (hkey ▸ List.mem_map_of_mem key het)
        · exact hka x h

/- ------------------------------------------------------------------ -/
/- Claims.                                                             -/
/- ------------------------------------------------------------------ -/

/-- C7: every action invoked in a request context with no authenticated
user raises UNAUTHORIZED (returning no result and leaving the database
untouched), regardless of the input payload. -/
theorem claim_C7 (db : DB) (now : Time)
    (i1 : CreateCourseInput) (i2 : UpdateCourseInput)
    (i3 : Option ListMyCoursesInput) (i4 : GetCourseWithItemsInput)
    (i5 : SaveCourseItemInput) (i6 : DeleteCourseItemInput)
    (i7 : UpsertCourseProgressInput) (i8 : UpdateCourseItemProgressInput) :
    createCourse i1 ⟨none⟩ now db = (.error .unauthorized, db) ∧
    updateCourse i2 ⟨none⟩ now db = (.error .unauthorized, db) ∧
    listMyCourses i3 ⟨none⟩ db = (.error .unauthorized, db) ∧
    getCourseWithItems i4 ⟨none⟩ db = (.error .unauthorized, db) ∧
    saveCourseItem i5 ⟨none⟩ now db = (.error .unauthorized, db) ∧
    deleteCourseItem i6 ⟨none⟩ db = (.error .unauthorized, db) ∧
    upsertCourseProgress i7 ⟨none⟩ now db = (.error .unauthorized, db) ∧
    updateCourseItemProgress i8 ⟨none⟩ now db = (.error .unauthorized, db) :=
  ⟨rfl, rfl, rfl, rfl, rfl, rfl, rfl, rfl⟩

/-- C5: for every createCourse call by an authenticated user, the
returned course is owned by the acting user, its level is the supplied
level or "beginner" when absent, and its status is the supplied status
or "planned" when absent. -/
theorem claim_C5 (u : User) (input : CreateCourseInput) (now : Time) (db : DB) :
    ∃ r : Course, (createCourse input ⟨some u⟩ now db).1 = .ok r ∧
      r.ownerId = u.id ∧ r.level = input.level.getD .beginner ∧
      r.status = input.status.getD .planned :=
  ⟨createCourseRow input u.id now db.nextCourseId, rfl, rfl, rfl, rfl⟩

/-- C1: an existing course row whose owner differs from the acting user
is unreachable through updateCourse, getCourseWithItems and
deleteCourseItem: each raises NOT_FOUND (and leaves the database
untouched) when targeting it by id (by courseId for deleteCourseItem). -/
theorem claim_C1 (u : User) (c : Course) (db : DB) (now : Time)
    (hnd : (db.courses.map Course.id).Nodup)
    (hc : c ∈ db.courses) (hown : c.ownerId ≠ u.id) :
    (∀ input : UpdateCourseInput, input.id = c.id →
        updateCourse input ⟨some u⟩ now db = (.error .notFound, db)) ∧
    (∀ input : GetCourseWithItemsInput, input.id = c.id →
        getCourseWithItems input ⟨some u⟩ db = (.error .notFound, db)) ∧
    (∀ input : DeleteCourseItemInput, input.courseId = c.id →
        deleteCourseItem input ⟨some u⟩ db = (.error .notFound, db)) := by
  have hfn : db.courses.find? (fun x => x.id == c.id && x.ownerId == u.id) = none := by
    rw [List.find?_eq_none]
    intro x hx hpx
    simp only [Bool.and_eq_true, beq_iff_eq] at hpx
    have hxc : x = c := List.inj_on_of_nodup_map hnd hx hc hpx.1
    rw [hxc] at hpx
    exact hown hpx.2
  refine ⟨?_, ?_, ?_⟩
  · intro input hid
    simp only [updateCourse, requireUser, hid, hfn]
  · intro input hid
    simp only [getCourseWithItems, requireUser, hid, hfn]
  · intro input hid
    simp only [deleteCourseItem, requireUser, hid, hfn]

/-- C10: upsertCourseProgress never sets or clears completedAt: on the
(id, completedAt) column it either appends a fresh row whose completedAt
is NULL or leaves the column exactly as it was. -/
theorem claim_C10 (input : UpsertCourseProgressInput)
    (context : ActionAPIContext) (now : Time) (db : DB) :
    ((upsertCourseProgress input context now db).2.courseProgress.map
        (fun p => (p.id, p.completedAt)) =
      db.courseProgress.map (fun p => (p.id, p.completedAt)) ++
        [(db.nextProgressId, (none : Option Time))]) ∨
    ((upsertCourseProgress input context now db).2.courseProgress.map
        (fun p => (p.id, p.completedAt)) =
      db.courseProgress.map (fun p => (p.id, p.completedAt))) := by
  cases hru : requireUser context with
  | error e => right; simp [upsertCourseProgress, hru]
  | ok user =>
    cases hc : db.courses.find? (fun c => c.id == input.courseId && c.ownerId == user.id) with
    | none => right; simp [upsertCourseProgress, hru, hc]
    | some c0 =>
      cases hp : db.courseProgress.find? (fun p =>
          p.courseId == input.courseId && p.userId == user.id) with
      | some e =>
        right
        simp only [upsertCourseProgress, hru, hc, hp, List.map_map]
        apply List.map_congr_left
        intro p _
        simp only [Function.comp]
        cases hid : p.id == e.id <;> simp [applyProgressSet, hid]
      | none =>
        left
        simp [upsertCourseProgress, hru, hc, hp, insertProgressRow]

/-- C4: updateCourse leaves fields absent from the input untouched, and
with an empty change set it performs no write at all and returns the
stored record unchanged, updatedAt included. -/
theorem claim_C4 (u : User) (input : UpdateCourseInput) (now : Time) (db : DB)
    (existing : Course)
    (hnd : (db.courses.map Course.id).Nodup)
    (hfe : db.courses.find? (fun x => x.id == input.id && x.ownerId == u.id) = some existing) :
    ∃ r, (updateCourse input ⟨some u⟩ now db).1 = .ok r ∧
      r.id = existing.id ∧ r.ownerId = existing.ownerId ∧
      r.createdAt = existing.createdAt ∧
      (input.title = none → r.title = existing.title) ∧
      (input.description = none → r.description = existing.description) ∧
      (input.provider = none → r.provider = existing.provider) ∧
      (input.platform = none → r.platform = existing.platform) ∧
      (input.url = none → r.url = existing.url) ∧
      (input.level = none → r.level = existing.level) ∧
      (input.tags = none → r.tags = existing.tags) ∧
      (input.status = none → r.status = existing.status) ∧
      (∀ x ∈ (updateCourse input ⟨some u⟩ now db).2.courses,
        x ∈ db.courses ∨ x = r) ∧
      (input.hasChanges = false →
        updateCourse input ⟨some u⟩ now db = (.ok existing, db)) := by
  have hmem : existing ∈ db.courses := List.mem_of_find?_eq_some hfe
  have hpe := List.find?_some hfe
  simp only [Bool.and_eq_true, beq_iff_eq] at hpe
  cases hch : input.hasChanges with
  | false =>
    have hrun : updateCourse input ⟨some u⟩ now db = (.ok existing, db) := by
      simp only [updateCourse, requireUser, hfe, hch]
      rfl
    refine ⟨existing, by rw [hrun], rfl, rfl, rfl,
      fun _ => rfl, fun _ => rfl, fun _ => rfl, fun _ => rfl,
      fun _ => rfl, fun _ => rfl, fun _ => rfl, fun _ => rfl, ?_, fun _ => hrun⟩
    intro x hx
    rw [hrun] at hx
    exact Or.inl hx
  | true =>
    have hrun : updateCourse input ⟨some u⟩ now db =
        (.ok (applyCourseUpdate input now existing),
          { db with
              courses := db.courses.map (fun c =>
                if c.id == input.id && c.ownerId == u.id then
                  applyCourseUpdate input now c
                else c) }) := by
      simp only [updateCourse, requireUser, hfe, hch]
      rfl
    refine ⟨applyCourseUpdate input now existing, by rw [hrun], rfl, rfl, rfl,
      ?_, ?_, ?_, ?_, ?_, ?_, ?_, ?_, ?_, ?_⟩
    · intro h; simp [applyCourseUpdate, h]
    · intro h; simp [applyCourseUpdate, h, Option.or]
    · intro h; simp [applyCourseUpdate, h, Option.or]
    · intro h; simp [applyCourseUpdate, h, Option.or]
    · intro h; simp [applyCourseUpdate, h, Option.or]
    · intro h; simp [applyCourseUpdate, h]
    · intro h; simp [applyCourseUpdate, h, Option.or]
    · intro h; simp [applyCourseUpdate, h]
    · intro x hx
      rw [hrun] at hx
      rcases List.mem_map.1 hx with ⟨cc, hcc, rfl⟩
      cases hpc : (cc.id == input.id && cc.ownerId == u.id) with
      | false => simp only [hpc, if_neg Bool.false_ne_true]; exact Or.inl hcc
      | true =>
        simp only [Bool.and_eq_true, beq_iff_eq] at hpc
        have hce : cc = existing :=
          List.inj_on_of_nodup_map hnd hcc hmem (hpc.1.trans hpe.1.symm)
        right
        simp [hce, hpe.1, hpe.2]
    · intro h
      cases h

/-- C2: for an upsertCourseProgress call that passes the ownership
check, every optional field of the written row resolves as: the input
value if supplied, else the existing (courseId, acting user) row's value
if such a row exists, else its field-specific default (status
not_started, the three counters 0, lastVisitedItemId and meta absent);
startedAt is the current time when no existing row exists and is
preserved from the existing row otherwise. -/
theorem claim_C2 (u : User) (input : UpsertCourseProgressInput) (now : Time)
    (db : DB) (c : Course)
    (hc : db.courses.find? (fun x => x.id == input.courseId && x.ownerId == u.id) = some c) :
    (db.courseProgress.find? (fun p =>
        p.courseId == input.courseId && p.userId == u.id) = none →
      ∃ r, (upsertCourseProgress input ⟨some u⟩ now db).1 = .ok r ∧
        r.status = input.status.getD .not_started ∧
        r.completionPercent = input.completionPercent.getD 0 ∧
        r.totalItems = input.totalItems.getD 0 ∧
        r.completedItems = input.completedItems.getD 0 ∧
        r.lastVisitedItemId = input.lastVisitedItemId ∧
        r.meta = input.meta ∧
        r.startedAt = some now) ∧
    (∀ e, db.courseProgress.find? (fun p =>
        p.courseId == input.courseId && p.userId == u.id) = some e →
      ∀ d, e.startedAt = some d →
      ∃ r, (upsertCourseProgress input ⟨some u⟩ now db).1 = .ok r ∧
        r.status = input.status.getD e.status ∧
        r.completionPercent = input.completionPercent.getD e.completionPercent ∧
        r.totalItems = input.totalItems.getD e.totalItems ∧
        r.completedItems = input.completedItems.getD e.completedItems ∧
        r.lastVisitedItemId = input.lastVisitedItemId.or e.lastVisitedItemId ∧
        r.meta = input.meta.or e.meta ∧
        r.startedAt = some d) := by
  constructor
  · intro hp
    refine ⟨insertProgressRow (progressBaseValues input u.id now none)
      db.nextProgressId now, ?_, ?_, ?_, ?_, ?_, ?_, ?_, ?_⟩
    · simp [upsertCourseProgress, requireUser, hc, hp]
    all_goals simp [insertProgressRow, progressBaseValues]
  · intro e hp d hd
    refine ⟨applyProgressSet (progressBaseValues input u.id now (some e)) e,
      ?_, ?_, ?_, ?_, ?_, ?_, ?_, ?_⟩
    · simp [upsertCourseProgress, requireUser, hc, hp]
    all_goals simp [applyProgressSet, progressBaseValues, hd]

/-- C6: on an owned course, saveCourseItem with no id always inserts a
new CourseItems row, and with an id whose item belongs to a different
course it raises NOT_FOUND and changes nothing (in particular the item
is never reparented). -/
theorem claim_C6 (u : User) (input : SaveCourseItemInput) (now : Time)
    (db : DB) (c : Course)
    (hc : db.courses.find? (fun x => x.id == input.courseId && x.ownerId == u.id) = some c) :
    (input.id = none →
      saveCourseItem input ⟨some u⟩ now db =
        (.ok (saveItemRow input now db.nextItemId),
          { db with
              courseItems := db.courseItems ++ [saveItemRow input now db.nextItemId]
              nextItemId := db.nextItemId + 1 })) ∧
    (∀ j e, input.id = some j →
      db.courseItems.find? (fun it => it.id == j) = some e →
      (∀ it ∈ db.courseItems, 1 ≤ it.id) →
      e.courseId ≠ input.courseId →
      saveCourseItem input ⟨some u⟩ now db = (.error .notFound, db)) := by
  constructor
  · intro hid
    simp [saveCourseItem, requireUser, hc, hid, saveCourseItemInsert]
  · intro j e hid hfe hpos hneq
    have hej : e.id = j := by simpa using List.find?_some hfe
    have h1 : 1 ≤ j := hej ▸ hpos e (List.mem_of_find?_eq_some hfe)
    have hj0 : (j != 0) = true := by
      simp only [bne_iff_ne, ne_eq]
      omega
    simp [saveCourseItem, requireUser, hc, hid, hj0, hfe, hneq]

/-- C9 (amended): when saveCourseItem updates an existing item of the
given course, it overwrites title and courseId, resets createdAt to the
current time, and reverts omitted type, position and isRequired to
their defaults (lesson, 0, true); but omitted description, dueDate and
estimatedMinutes keep their stored values, because their undefined
entries are dropped from the update SET clause, rather than being
cleared. -/
theorem claim_C9 (u : User) (input : SaveCourseItemInput) (now : Time)
    (db : DB) (c : Course) (j : Nat) (e : CourseItem)
    (hc : db.courses.find? (fun x => x.id == input.courseId && x.ownerId == u.id) = some c)
    (hid : input.id = some j)
    (hfe : db.courseItems.find? (fun it => it.id == j) = some e)
    (hpos : ∀ it ∈ db.courseItems, 1 ≤ it.id)
    (heq : e.courseId = input.courseId) :
    ∃ r, (saveCourseItem input ⟨some u⟩ now db).1 = .ok r ∧
      r.id = e.id ∧
      r.courseId = input.courseId ∧
      r.title = input.title ∧
      r.type = input.type.getD .lesson ∧
      r.position = input.position.getD 0 ∧
      r.isRequired = input.isRequired.getD true ∧
      r.createdAt = now ∧
      r.description = input.description.or e.description ∧
      r.dueDate = input.dueDate.or e.dueDate ∧
      r.estimatedMinutes = input.estimatedMinutes.or e.estimatedMinutes := by
  have hej : e.id = j := by simpa using List.find?_some hfe
  have h1 : 1 ≤ j := hej ▸ hpos e (List.mem_of_find?_eq_some hfe)
  have hj0 : (j != 0) = true := by
    simp only [bne_iff_ne, ne_eq]
    omega
  refine ⟨saveItemOverwrite input now e, ?_,
    rfl, rfl, rfl, rfl, rfl, rfl, rfl, rfl, rfl, rfl⟩
  simp [saveCourseItem, requireUser, hc, hid, hj0, hfe, heq]

/-- C9, counterexample to the claim as stated: updating `sampleItem`
(stored description "keep", stored estimatedMinutes 30) while omitting
the optional fields keeps the stored description and estimatedMinutes
instead of clearing them. -/
theorem claim_C9_counterexample :
    (saveCourseItem sampleSaveInput ⟨some alice⟩ 5 sampleDB).1 =
      .ok (saveItemOverwrite sampleSaveInput 5 sampleItem) ∧
    (saveItemOverwrite sampleSaveInput 5 sampleItem).description = some "keep" ∧
    (saveItemOverwrite sampleSaveInput 5 sampleItem).estimatedMinutes = some 30 :=
  ⟨rfl, rfl, rfl⟩

/-- C8: whenever an action raises UNAUTHORIZED or NOT_FOUND, the whole
database state — all four tables — is exactly as it was before the
call. -/
theorem claim_C8 :
    (∀ (i : CreateCourseInput) (ctx : ActionAPIContext) (now : Time) (db : DB)
        (err : ActionError),
      (createCourse i ctx now db).1 = .error err → (createCourse i ctx now db).2 = db) ∧
    (∀ (i : UpdateCourseInput) (ctx : ActionAPIContext) (now : Time) (db : DB)
        (err : ActionError),
      (updateCourse i ctx now db).1 = .error err → (updateCourse i ctx now db).2 = db) ∧
    (∀ (i : Option ListMyCoursesInput) (ctx : ActionAPIContext) (db : DB)
        (err : ActionError),
      (listMyCourses i ctx db).1 = .error err → (listMyCourses i ctx db).2 = db) ∧
    (∀ (i : GetCourseWithItemsInput) (ctx : ActionAPIContext) (db : DB)
        (err : ActionError),
      (getCourseWithItems i ctx db).1 = .error err → (getCourseWithItems i ctx db).2 = db) ∧
    (∀ (i : SaveCourseItemInput) (ctx : ActionAPIContext) (now : Time) (db : DB)
        (err : ActionError),
      (saveCourseItem i ctx now db).1 = .error err → (saveCourseItem i ctx now db).2 = db) ∧
    (∀ (i : DeleteCourseItemInput) (ctx : ActionAPIContext) (db : DB)
        (err : ActionError),
      (deleteCourseItem i ctx db).1 = .error err → (deleteCourseItem i ctx db).2 = db) ∧
    (∀ (i : UpsertCourseProgressInput) (ctx : ActionAPIContext) (now : Time) (db : DB)
        (err : ActionError),
      (upsertCourseProgress i ctx now db).1 = .error err →
        (upsertCourseProgress i ctx now db).2 = db) ∧
    (∀ (i : UpdateCourseItemProgressInput) (ctx : ActionAPIContext) (now : Time)
        (db : DB) (err : ActionError),
      (updateCourseItemProgress i ctx now db).1 = .error err →
        (updateCourseItemProgress i ctx now db).2 = db) := by
  refine ⟨?_, ?_, ?_, ?_, ?_, ?_, ?_, ?_⟩
  · intro i ctx now db err h
    cases hru : requireUser ctx with
    | error e => simp [createCourse, hru]
    | ok user => simp [createCourse, hru] at h
  · intro i ctx now db err h
    cases hru : requireUser ctx with
    | error e => simp [updateCourse, hru]
    | ok user =>
      cases hc : db.courses.find? (fun c => c.id == i.id && c.ownerId == user.id) with
      | none => simp [updateCourse, hru, hc]
      | some ex =>
        cases hch : i.hasChanges with
        | true => simp [updateCourse, hru, hc, hch] at h
        | false => simp [updateCourse, hru, hc, hch] at h
  · intro i ctx db err h
    cases hru : requireUser ctx with
    | error e => simp [listMyCourses, hru]
    | ok user => simp [listMyCourses, hru] at h
  · intro i ctx db err h
    cases hru : requireUser ctx with
    | error e => simp [getCourseWithItems, hru]
    | ok user =>
      cases hc : db.courses.find? (fun c => c.id == i.id && c.ownerId == user.id) with
      | none => simp [getCourseWithItems, hru, hc]
      | some course => simp [getCourseWithItems, hru, hc] at h
  · intro i ctx now db err h
    cases hru : requireUser ctx with
    | error e => simp [saveCourseItem, hru]
    | ok user =>
      cases hc : db.courses.find? (fun c => c.id == i.courseId && c.ownerId == user.id) with
      | none => simp [saveCourseItem, hru, hc]
      | some cc =>
        cases hoi : i.id with
        | none => simp [saveCourseItem, saveCourseItemInsert, hru, hc, hoi] at h
        | some j =>
          cases hj : j != 0 with
          | false => simp [saveCourseItem, saveCourseItemInsert, hru, hc, hoi, hj] at h
          | true =>
            cases hfe : db.courseItems.find? (fun it => it.id == j) with
            | none => simp [saveCourseItem, hru, hc, hoi, hj, hfe]
            | some e =>
              cases hcid : e.courseId != i.courseId with
              | true => simp [saveCourseItem, hru, hc, hoi, hj, hfe, hcid]
              | false => simp [saveCourseItem, hru, hc, hoi, hj, hfe, hcid] at h
  · intro i ctx db err h
    cases hru : requireUser ctx with
    | error e => simp [deleteCourseItem, hru]
    | ok user =>
      cases hc : db.courses.find? (fun c => c.id == i.courseId && c.ownerId == user.id) with
      | none => simp [deleteCourseItem, hru, hc]
      | some cc =>
        cases hh : (db.courseItems.filter (fun it =>
            it.id == i.id && it.courseId == i.courseId)).head? with
        | some d => simp [deleteCourseItem, hru, hc, hh] at h
        | none =>
          have hnil : db.courseItems.filter (fun it =>
              it.id == i.id && it.courseId == i.courseId) = [] :=
            List.head?_eq_none_iff.mp hh
          have hself : db.courseItems.filter (fun it =>
              !(it.id == i.id && it.courseId == i.courseId)) = db.courseItems := by
            rw [List.filter_eq_self]
            intro a ha
            have hna := List.filter_eq_nil_iff.mp hnil a ha
            simp at hna ⊢
            tauto
          simp only [deleteCourseItem, hru, hc, hh]
          rw [hself]
  · intro i ctx now db err h
    cases hru : requireUser ctx with
    | error e => simp [upsertCourseProgress, hru]
    | ok user =>
      cases hc : db.courses.find? (fun c => c.id == i.courseId && c.ownerId == user.id) with
      | none => simp [upsertCourseProgress, hru, hc]
      | some cc =>
        cases hp : db.courseProgress.find? (fun p =>
            p.courseId == i.courseId && p.userId == user.id) with
        | some e => simp [upsertCourseProgress, hru, hc, hp] at h
        | none => simp [upsertCourseProgress, hru, hc, hp] at h
  · intro i ctx now db err h
    cases hru : requireUser ctx with
    | error e => simp [updateCourseItemProgress, hru]
    | ok user =>
      cases hit : db.courseItems.find? (fun it => it.id == i.itemId) with
      | none => simp [updateCourseItemProgress, hru, hit]
      | some item =>
        cases hc : db.courses.find? (fun c =>
            c.id == item.courseId && c.ownerId == user.id) with
        | none => simp [updateCourseItemProgress, hru, hit, hc]
        | some cc =>
          cases hp : db.courseItemProgress.find? (fun p =>
              p.itemId == i.itemId && p.userId == user.id) with
          | some e => simp [updateCourseItemProgress, hru, hit, hc, hp] at h
          | none => simp [updateCourseItemProgress, hru, hit, hc, hp] at h

/-- Running upsertCourseProgress when the progress table splits around
the unique row of the acting (courseId, user) pair: the call takes the
update branch on that row, keeps every other row intact, and leaves
exactly one row for the pair. -/
theorem upsert_second (u : User) (i2 : UpsertCourseProgressInput) (now2 : Time)
    (db1 : DB) (c : Course) (r1 : CourseProgress) (la lb : List CourseProgress)
    (hc2 : db1.courses.find? (fun x => x.id == i2.courseId && x.ownerId == u.id) = some c)
    (hsplit : db1.courseProgress = la ++ r1 :: lb)
    (hlaF : ∀ x ∈ la, (x.courseId == i2.courseId && x.userId == u.id) = false)
    (hlaK : ∀ x ∈ la, x.id ≠ r1.id)
    (hlbK : ∀ x ∈ lb, x.id ≠ r1.id)
    (hlb0 : lb.countP (fun p => p.courseId == i2.courseId && p.userId == u.id) = 0)
    (hr1pair : (r1.courseId == i2.courseId && r1.userId == u.id) = true) :
    upsertCourseProgress i2 ⟨some u⟩ now2 db1 =
      (.ok (applyProgressSet (progressBaseValues i2 u.id now2 (some r1)) r1),
        { db1 with
            courseProgress :=
              la ++ applyProgressSet (progressBaseValues i2 u.id now2 (some r1)) r1 :: lb }) ∧
    (la ++ applyProgressSet (progressBaseValues i2 u.id now2 (some r1)) r1 :: lb).countP
        (fun p => p.courseId == i2.courseId && p.userId == u.id) = 1 ∧
    (la ++ applyProgressSet (progressBaseValues i2 u.id now2 (some r1)) r1 :: lb).length =
      db1.courseProgress.length := by
  have hlanone : la.find? (fun p => p.courseId == i2.courseId && p.userId == u.id) = none :=
    List.find?_eq_none.mpr (fun x hx => by simp [hlaF x hx])
  have hfind2 : db1.courseProgress.find? (fun p =>
      p.courseId == i2.courseId && p.userId == u.id) = some r1 := by
    rw [hsplit, find?_append_left_none hlanone]
    exact List.find?_cons_of_pos lb hr1pair
  have hmapla : la.map (fun p => if p.id == r1.id then
      applyProgressSet (progressBaseValues i2 u.id now2 (some r1)) p else p) = la :=
    map_eq_self_of (fun x hx => by simp [hlaK x hx])
  have hmaplb : lb.map (fun p => if p.id == r1.id then
      applyProgressSet (progressBaseValues i2 u.id now2 (some r1)) p else p) = lb :=
    map_eq_self_of (fun x hx => by simp [hlbK x hx])
  have hmap : db1.courseProgress.map (fun p => if p.id == r1.id then
      applyProgressSet (progressBaseValues i2 u.id now2 (some r1)) p else p) =
      la ++ applyProgressSet (progressBaseValues i2 u.id now2 (some r1)) r1 :: lb := by
    rw [hsplit, List.map_append, List.map_cons, hmapla, hmaplb]
    simp
  have hla0 : la.countP (fun p => p.courseId == i2.courseId && p.userId == u.id) = 0 :=
    List.countP_eq_zero.mpr (fun x hx => by simp [hlaF x hx])
  have hr2p : ((applyProgressSet (progressBaseValues i2 u.id now2 (some r1)) r1).courseId ==
      i2.courseId &&
      (applyProgressSet (progressBaseValues i2 u.id now2 (some r1)) r1).userId == u.id) = true := by
    simp [applyProgressSet, progressBaseValues]
  refine ⟨?_, ?_, ?_⟩
  · simp only [upsertCourseProgress, requireUser, hc2, hfind2]
    rw [hmap]
  · simp [List.countP_append, List.countP_cons, hla0, hlb0, hr2p]
  · rw [hsplit]
    simp

/-- The row written by a second upsertCourseProgress call over an
existing row r1 keeps r1's id, createdAt and completedAt, preserves a
set startedAt, and keeps every field the second input does not
supply. -/
theorem progress_retention (i2 : UpsertCourseProgressInput) (uid : String)
    (now2 : Time) (r1 : CourseProgress) (s : Time)
    (hstart : r1.startedAt = some s) :
    (applyProgressSet (progressBaseValues i2 uid now2 (some r1)) r1).id = r1.id ∧
    (applyProgressSet (progressBaseValues i2 uid now2 (some r1)) r1).startedAt = r1.startedAt ∧
    (applyProgressSet (progressBaseValues i2 uid now2 (some r1)) r1).completedAt = r1.completedAt ∧
    (applyProgressSet (progressBaseValues i2 uid now2 (some r1)) r1).createdAt = r1.createdAt ∧
    (i2.status = none →
      (applyProgressSet (progressBaseValues i2 uid now2 (some r1)) r1).status = r1.status) ∧
    (i2.completionPercent = none →
      (applyProgressSet (progressBaseValues i2 uid now2 (some r1)) r1).completionPercent =
        r1.completionPercent) ∧
    (i2.totalItems = none →
      (applyProgressSet (progressBaseValues i2 uid now2 (some r1)) r1).totalItems = r1.totalItems) ∧
    (i2.completedItems = none →
      (applyProgressSet (progressBaseValues i2 uid now2 (some r1)) r1).completedItems =
        r1.completedItems) ∧
    (i2.lastVisitedItemId = none →
      (applyProgressSet (progressBaseValues i2 uid now2 (some r1)) r1).lastVisitedItemId =
        r1.lastVisitedItemId) ∧
    (i2.meta = none →
      (applyProgressSet (progressBaseValues i2 uid now2 (some r1)) r1).meta = r1.meta) := by
  refine ⟨rfl, ?_, rfl, rfl, ?_, ?_, ?_, ?_, ?_, ?_⟩
  · simp [applyProgressSet, progressBaseValues, hstart]
  all_goals intro h
  all_goals simp [applyProgressSet, progressBaseValues, h]

/-- C3: two sequential upsertCourseProgress calls by the same user for
the same courseId leave exactly one CourseProgress row for the pair; the
second call updates — same row id, no insertion — the row the first call
created or found, and every field the second call does not supply keeps
the value the row had after the first call. -/
theorem claim_C3 (u : User) (i1 i2 : UpsertCourseProgressInput)
    (now1 now2 : Time) (db0 db1 : DB) (r1 : CourseProgress)
    (hwf : ProgressWF db0)
    (h21 : i2.courseId = i1.courseId)
    (hcount : pairCount db0 i1.courseId u.id ≤ 1)
    (h1 : upsertCourseProgress i1 ⟨some u⟩ now1 db0 = (.ok r1, db1)) :
    ∃ r2 db2,
      upsertCourseProgress i2 ⟨some u⟩ now2 db1 = (.ok r2, db2) ∧
      pairCount db2 i1.courseId u.id = 1 ∧
      db2.courseProgress.length = db1.courseProgress.length ∧
      r2.id = r1.id ∧
      r2.startedAt = r1.startedAt ∧
      r2.completedAt = r1.completedAt ∧
      r2.createdAt = r1.createdAt ∧
      (i2.status = none → r2.status = r1.status) ∧
      (i2.completionPercent = none → r2.completionPercent = r1.completionPercent) ∧
      (i2.totalItems = none → r2.totalItems = r1.totalItems) ∧
      (i2.completedItems = none → r2.completedItems = r1.completedItems) ∧
      (i2.lastVisitedItemId = none → r2.lastVisitedItemId = r1.lastVisitedItemId) ∧
      (i2.meta = none → r2.meta = r1.meta) := by
  obtain ⟨hnd, hlt⟩ := hwf
  cases hc : db0.courses.find? (fun x => x.id == i1.courseId && x.ownerId == u.id) with
  | none => simp [upsertCourseProgress, requireUser, hc] at h1
  | some c =>
    cases hp : db0.courseProgress.find? (fun p =>
        p.courseId == i1.courseId && p.userId == u.id) with
    | none =>
      have hrun1 : upsertCourseProgress i1 ⟨some u⟩ now1 db0 =
          (.ok (insertProgressRow (progressBaseValues i1 u.id now1 none)
              db0.nextProgressId now1),
            { db0 with
                courseProgress := db0.courseProgress ++
                  [insertProgressRow (progressBaseValues i1 u.id now1 none)
                    db0.nextProgressId now1]
                nextProgressId := db0.nextProgressId + 1 }) := by
        simp [upsertCourseProgress, requireUser, hc, hp]
      rw [hrun1] at h1
      set row := insertProgressRow (progressBaseValues i1 u.id now1 none)
        db0.nextProgressId now1 with hrow
      injection h1 with h1a h1b
      injection h1a with h1a
      subst h1a
      subst h1b
      have hrowid : row.id = db0.nextProgressId := by rw [hrow]; rfl
      have hc2 : ({ db0 with
          courseProgress := db0.courseProgress ++ [row]
          nextProgressId := db0.nextProgressId + 1 } : DB).courses.find?
            (fun x => x.id == i2.courseId && x.ownerId == u.id) = some c := by
        rw [h21]
        exact hc
      have hsplit : ({ db0 with
          courseProgress := db0.courseProgress ++ [row]
          nextProgressId := db0.nextProgressId + 1 } : DB).courseProgress =
          db0.courseProgress ++ row :: [] := rfl
      have hlaF : ∀ x ∈ db0.courseProgress,
          (x.courseId == i2.courseId && x.userId == u.id) = false := by
        intro x hx
        have hbx := List.find?_eq_none.mp hp x hx
        rw [h21]
        simp only [Bool.not_eq_true] at hbx
        exact hbx
      have hlaK : ∀ x ∈ db0.courseProgress, x.id ≠ row.id := by
        intro x hx
        have hxlt := hlt x hx
        rw [hrowid]
        omega
      have hr1pair : (row.courseId == i2.courseId && row.userId == u.id) = true := by
        rw [h21, hrow]
        simp [insertProgressRow, progressBaseValues]
      have hstart : row.startedAt =
          some ((progressBaseValues i1 u.id now1 none).startedAt) := by
        rw [hrow]; rfl
      obtain ⟨hrun2, hcnt, hlen⟩ := upsert_second u i2 now2 _ c row
        db0.courseProgress [] hc2 hsplit hlaF hlaK (by simp) (by simp) hr1pair
      obtain ⟨hf1, hf2, hf3, hf4, hf5, hf6, hf7, hf8, hf9, hf10⟩ :=
        progress_retention i2 u.id now2 row _ hstart
      refine ⟨_, _, hrun2, ?_, ?_, hf1, hf2, hf3, hf4, hf5, hf6, hf7, hf8, hf9, hf10⟩
      · simp only [pairCount]
        rw [← h21]
        exact hcnt
      · exact hlen
    | some e =>
      have hrun1 : upsertCourseProgress i1 ⟨some u⟩ now1 db0 =
          (.ok (applyProgressSet (progressBaseValues i1 u.id now1 (some e)) e),
            { db0 with
                courseProgress := db0.courseProgress.map (fun p =>
                  if p.id == e.id then
                    applyProgressSet (progressBaseValues i1 u.id now1 (some e)) p
                  else p) }) := by
        simp [upsertCourseProgress, requireUser, hc, hp]
      rw [hrun1] at h1
      set r1v := applyProgressSet (progressBaseValues i1 u.id now1 (some e)) e with hr1v
      injection h1 with h1a h1b
      injection h1a with h1a
      subst h1a
      subst h1b
      have hr1id : r1v.id = e.id := by rw [hr1v]; rfl
      obtain ⟨la, lb, hsplit0, hlaF1, hlaK0, hlbK0⟩ :=
        find?_decomp_nodup CourseProgress.id hnd hp
      have hmapla : la.map (fun p => if p.id == e.id then
          applyProgressSet (progressBaseValues i1 u.id now1 (some e)) p else p) = la :=
        map_eq_self_of (fun x hx => by simp [hlaK0 x hx])
      have hmaplb : lb.map (fun p => if p.id == e.id then
          applyProgressSet (progressBaseValues i1 u.id now1 (some e)) p else p) = lb :=
        map_eq_self_of (fun x hx => by simp [hlbK0 x hx])
      have hdb1p : ({ db0 with
          courseProgress := db0.courseProgress.map (fun p =>
            if p.id == e.id then
              applyProgressSet (progressBaseValues i1 u.id now1 (some e)) p
            else p) } : DB).courseProgress = la ++ r1v :: lb := by
        show db0.courseProgress.map _ = _
        rw [hsplit0, List.map_append, List.map_cons, hmapla, hmaplb]
        simp [hr1v]
      have hpe1 := List.find?_some hp
      have hla0 : la.countP (fun p =>
          p.courseId == i1.courseId && p.userId == u.id) = 0 :=
        List.countP_eq_zero.mpr (fun x hx => by simp [hlaF1 x hx])
      have hlb0p : lb.countP (fun p =>
          p.courseId == i1.courseId && p.userId == u.id) = 0 := by
        have hcnt0 := hcount
        simp only [pairCount, hsplit0, List.countP_append, List.countP_cons,
          hla0, hpe1, if_true] at hcnt0
        omega
      have hc2 : ({ db0 with
          courseProgress := db0.courseProgress.map (fun p =>
            if p.id == e.id then
              applyProgressSet (progressBaseValues i1 u.id now1 (some e)) p
            else p) } : DB).courses.find?
            (fun x => x.id == i2.courseId && x.ownerId == u.id) = some c := by
        rw [h21]
        exact hc
      have hlaF : ∀ x ∈ la, (x.courseId == i2.courseId && x.userId == u.id) = false := by
        intro x hx
        rw [h21]
        exact hlaF1 x hx
      have hlaK : ∀ x ∈ la, x.id ≠ r1v.id := by
        intro x hx
        rw [hr1id]
        exact hlaK0 x hx
      have hlbK : ∀ x ∈ lb, x.id ≠ r1v.id := by
        intro x hx
        rw [hr1id]
        exact hlbK0 x hx
      have hlb0 : lb.countP (fun p =>
          p.courseId == i2.courseId && p.userId == u.id) = 0 := by
        rw [h21]
        exact hlb0p
      have hr1pair : (r1v.courseId == i2.courseId && r1v.userId == u.id) = true := by
        rw [h21, hr1v]
        simp [applyProgressSet, progressBaseValues]
      have hstart : r1v.startedAt =
          some ((progressBaseValues i1 u.id now1 (some e)).startedAt) := by
        rw [hr1v]; rfl
      obtain ⟨hrun2, hcnt, hlen⟩ := upsert_second u i2 now2 _ c r1v
        la lb hc2 hdb1p hlaF hlaK hlbK hlb0 hr1pair
      obtain ⟨hf1, hf2, hf3, hf4, hf5, hf6, hf7, hf8, hf9, hf10⟩ :=
        progress_retention i2 u.id now2 r1v _ hstart
      refine ⟨_, _, hrun2, ?_, ?_, hf1, hf2, hf3, hf4, hf5, hf6, hf7, hf8, hf9, hf10⟩
      · simp only [pairCount]
        rw [← h21]
        exact hcnt
      · exact hlen

/-- C1, witnessed: `bob` cannot reach `alice`'s course 1. -/
theorem claim_C1_witness :
    updateCourse sampleUpdateInput ⟨some bob⟩ 7 sampleDB = (.error .notFound, sampleDB) ∧
    getCourseWithItems ⟨1⟩ ⟨some bob⟩ sampleDB = (.error .notFound, sampleDB) ∧
    deleteCourseItem ⟨1, 1⟩ ⟨some bob⟩ sampleDB = (.error .notFound, sampleDB) := by
  have h := claim_C1 bob sampleCourse sampleDB 7 (by decide) (by decide) (by decide)
  exact ⟨h.1 sampleUpdateInput rfl, h.2.1 ⟨1⟩ rfl, h.2.2 ⟨1, 1⟩ rfl⟩

/-- C2, witnessed: `alice` upserts progress on course 1 of `sampleDB`
(no existing row): unsupplied fields take their defaults, the supplied
completionPercent is written, and startedAt is the current time. -/
theorem claim_C2_witness :
    ∃ r, (upsertCourseProgress sampleUpsertInputB ⟨some alice⟩ 3 sampleDB).1 = .ok r ∧
      r.status = ProgressStatus.not_started ∧
      r.completionPercent = 50 ∧
      r.totalItems = 0 ∧
      r.startedAt = some 3 := by
  obtain ⟨r, h1, h2, h3, h4, h5, h6, h7, h8⟩ :=
    (claim_C2 alice sampleUpsertInputB 3 sampleDB sampleCourse (by decide)).1 (by decide)
  exact ⟨r, h1, by rw [h2]; rfl, by rw [h3]; rfl, by rw [h4]; rfl, h8⟩

/-- C3, witnessed: a second upsert for (course 1, alice) after the first
sample upsert keeps a single progress row, with the same row id, and the
unsupplied totalItems keeps its value from the first call. -/
theorem claim_C3_witness :
    ∃ r2 db2,
      upsertCourseProgress sampleUpsertInputB ⟨some alice⟩ 9 sampleDBAfterA =
        (.ok r2, db2) ∧
      pairCount db2 1 "alice" = 1 ∧
      r2.id = sampleProgressRow.id ∧
      r2.totalItems = sampleProgressRow.totalItems := by
  obtain ⟨r2, db2, hrun, hcnt, hlen, hid, hst, hca, hcr, hs, hcp, hti, hci, hlv, hm⟩ :=
    claim_C3 alice sampleUpsertInputA sampleUpsertInputB 3 9 sampleDB sampleDBAfterA
      sampleProgressRow ⟨by decide, by decide⟩ rfl (by decide) rfl
  exact ⟨r2, db2, hrun, hcnt, hid, hti rfl⟩

/-- C4, witnessed: `alice` updates course 1 with an empty change set:
the stored record comes back unchanged and nothing is written. -/
theorem claim_C4_witness :
    ∃ r, (updateCourse sampleUpdateInput ⟨some alice⟩ 7 sampleDB).1 = .ok r ∧
      r.title = sampleCourse.title ∧
      updateCourse sampleUpdateInput ⟨some alice⟩ 7 sampleDB = (.ok sampleCourse, sampleDB) := by
  obtain ⟨r, h1, hid, how, hcr, ht, hd, hpv, hpl, hu, hl, htg, hs, hmem, hempty⟩ :=
    claim_C4 alice sampleUpdateInput 7 sampleDB sampleCourse (by decide) rfl
  exact ⟨r, h1, ht rfl, hempty rfl⟩

/-- C6, witnessed: an id-less save inserts a new row into `sampleDB`,
and a save targeting item 1 under course 2 raises NOT_FOUND without
touching `sampleDB2`. -/
theorem claim_C6_witness :
    saveCourseItem sampleSaveInsertInput ⟨some alice⟩ 4 sampleDB =
      (.ok (saveItemRow sampleSaveInsertInput 4 2),
        { sampleDB with
            courseItems := sampleDB.courseItems ++ [saveItemRow sampleSaveInsertInput 4 2]
            nextItemId := 3 }) ∧
    saveCourseItem sampleSaveWrongCourse ⟨some alice⟩ 4 sampleDB2 =
      (.error .notFound, sampleDB2) := by
  constructor
  · exact (claim_C6 alice sampleSaveInsertInput 4 sampleDB sampleCourse rfl).1 rfl
  · exact (claim_C6 alice sampleSaveWrongCourse 4 sampleDB2 sampleCourse2 rfl).2
      1 sampleItem rfl rfl (by decide) (by decide)

/-- C8, witnessed: three failing invocations — an update by a non-owner,
a delete of a nonexistent item, and an unauthenticated create — leave
the database exactly as it was. -/
theorem claim_C8_witness :
    (updateCourse sampleUpdateInput ⟨some bob⟩ 7 sampleDB).2 = sampleDB ∧
    (deleteCourseItem ⟨5, 1⟩ ⟨some alice⟩ sampleDB).2 = sampleDB ∧
    (createCourse sampleCreateInput ⟨none⟩ 7 sampleDB).2 = sampleDB := by
  refine ⟨?_, ?_, ?_⟩
  · exact claim_C8.2.1 sampleUpdateInput ⟨some bob⟩ 7 sampleDB .notFound rfl
  · exact claim_C8.2.2.2.2.2.1 ⟨5, 1⟩ ⟨some alice⟩ sampleDB .notFound rfl
  · exact claim_C8.1 sampleCreateInput ⟨none⟩ 7 sampleDB .unauthorized rfl

/-- C9 (amended), witnessed: updating item 1 of course 1 while omitting
every optional field keeps the stored description, resets createdAt, and
reverts type to its default. -/
theorem claim_C9_witness :
    ∃ r, (saveCourseItem sampleSaveInput ⟨some alice⟩ 5 sampleDB).1 = .ok r ∧
      r.description = some "keep" ∧
      r.createdAt = 5 ∧
      r.type = ItemType.lesson := by
  obtain ⟨r, h1, hid, hcid, ht, hty, hpos2, hreq, hca, hd, hdd, hem⟩ :=
    claim_C9 alice sampleSaveInput 5 sampleDB sampleCourse 1 sampleItem
      rfl rfl rfl (by decide) rfl
  refine ⟨r, h1, ?_, hca, ?_⟩
  · rw [hd]; rfl
  · rw [hty]; rfl

end CourseTracker
